import Mathlib

/-!
Verification of the benchmarking harness of the `hqtcsdl_lab` repository
(a MySQL-vs-MongoDB workload benchmark). The Python sources are embedded
shallowly: the pure helpers of `utils.py` become Lean functions on lists,
and the stateful `QueryBenchmark` class of `benchmarker.py` becomes a
state-passing model in which randomness is an explicit stream of draws
and wall-clock times are parameters of the environment.
-/

namespace HqtcsdlLab

/-- Python slice `l[a:b]` for non-negative bounds: the elements at indices
`a ≤ i < b`, clamped to the length of the list. -/
def pySlice (l : List α) (a b : Nat) : List α :=
  (l.take b).drop a

/-- Embedding of `utils.divide_chunks(data, n)`.
The Python body is `k, m = divmod(len(data), n)` followed by
`[data[i*k + min(i, m):(i+1)*k + min(i+1, m)] for i in range(n)]`.
`divmod` raises `ZeroDivisionError` when `n == 0` (modelled as `none`);
for `n < 0` it uses floor division and `range(n)` is empty, so the
comprehension yields `[]`.  Python's floor division and modulo on ints
are `Int.fdiv` and `Int.fmod`. -/
def divide_chunks (data : List α) (n : Int) : Option (List (List α)) :=
  if n = 0 then none
  else
    let k : Int := Int.fdiv (data.length : Int) n
    let m : Int := Int.fmod (data.length : Int) n
    some ((List.range n.toNat).map (fun i =>
      pySlice data ((Int.ofNat i * k + min (Int.ofNat i) m).toNat)
        (((Int.ofNat i + 1) * k + min (Int.ofNat i + 1) m).toNat)))

/-- The chunk boundary used by `divide_chunks` for a positive chunk count,
in `Nat` arithmetic: chunk `i` spans `[chunkBound l n i, chunkBound l n (i+1))`. -/
def chunkBound (l : List α) (n : Nat) (i : Nat) : Nat :=
  i * (l.length / n) + min i (l.length % n)

/-- Value of `divide_chunks` at a positive chunk count, rephrased in `Nat` arithmetic. -/
def chunksOf (l : List α) (n : Nat) : List (List α) :=
  (List.range n).map (fun i => pySlice l (chunkBound l n i) (chunkBound l n (i + 1)))

/-- Embedding of `utils.scale_list_repeat(lst, n)`: empty input gives `[]`;
`len(lst) >= n` gives `lst[:n]`; otherwise `[lst[i % len(lst)] for i in range(n)]`. -/
def scale_list_repeat (lst : List α) (n : Nat) : List α :=
  match lst with
  | [] => []
  | x :: xs =>
    if (x :: xs).length ≥ n then (x :: xs).take n
    else (List.range n).map (fun i =>
      (x :: xs).get ⟨i % (x :: xs).length, Nat.mod_lt _ (Nat.succ_pos xs.length)⟩)

/-! ### Model of the `QueryBenchmark` orchestrator (`src/benchmarker.py`)

Random strings (`_random_cccd`, `_random_name`) are draws from an abstract
random stream, so generated values are `Nat`; wall-clock durations from
`time.perf_counter` are parameters of the environment.  Worker tasks of a
phase run in a thread pool; their effects on a backend commute up to
permutation, and the model applies them in submission order — every
property proved below (counts, membership, frame conditions) is preserved
under any interleaving of the workers. -/

/-- A row of the MySQL table `thanh_vien`: only the natural key `cccd` and
the name `ten` carry information (birth date and gender are constants). -/
structure MysqlRow where
  cccd : Nat
  ten : Nat
deriving DecidableEq

/-- A document of the MongoDB collection, in the field order of the dict
literal built in `benchmark_concurrent_insert`. -/
structure MongoDoc where
  ten : Nat
  cccd : Nat
deriving DecidableEq

/-- The random source behind `random.choices`: a stream of draws and the
position of the next draw.  Each `_random_cccd()` / `_random_name()` call
consumes exactly one draw. -/
structure Rng where
  stream : Nat → Nat
  pos : Nat

def Rng.draw (r : Rng) : Nat × Rng :=
  (r.stream r.pos, { r with pos := r.pos + 1 })

/-- One entry of `self.results`: `(label, mysql_time, mongo_time)`. -/
abbrev MeasurementResult := String × Nat × Nat

/-- The mutable state of a `QueryBenchmark` instance, together with the
contents of the two backends it writes to. -/
structure QueryBenchmark where
  threads : Nat
  inserted_cccds_mysql : List Nat
  inserted_cccds_mongo : List Nat
  results : List MeasurementResult
  mysql_db : List MysqlRow
  mongo_db : List MongoDoc

/-- The MySQL generation loop of `benchmark_concurrent_insert`: per record a
name draw then a cccd draw; the record goes into `batch` and its cccd into
`inserted_cccds_mysql`.  Returns `(batch, recorded keys, final rng)`. -/
def genMysqlBatch : Nat → Rng → List MysqlRow × List Nat × Rng
  | 0, rng => ([], [], rng)
  | num + 1, rng =>
    let (name, rng1) := rng.draw
    let (cccd, rng2) := rng1.draw
    let rest := genMysqlBatch num rng2
    (⟨cccd, name⟩ :: rest.1, cccd :: rest.2.1, rest.2.2)

/-- The MongoDB generation loop of `benchmark_concurrent_insert`: per
iteration a cccd draw that is appended to `inserted_cccds_mongo`, then the
dict literal draws a name and — crucially — a *second, independent* cccd for
the document's `"cccd"` field.  Returns `(docs, recorded keys, final rng)`. -/
def genMongoBatch : Nat → Rng → List MongoDoc × List Nat × Rng
  | 0, rng => ([], [], rng)
  | num + 1, rng =>
    let (cccd, rng1) := rng.draw
    let (ten, rng2) := rng1.draw
    let (cccd2, rng3) := rng2.draw
    let rest := genMongoBatch num rng3
    (⟨ten, cccd2⟩ :: rest.1, cccd :: rest.2.1, rest.2.2)

/-- Net effect of `_insert_mysql(batch)` on the table: the batch is appended
(one INSERT per record under a fresh connection, then commit). -/
def insert_mysql (db : List MysqlRow) (batch : List MysqlRow) : List MysqlRow :=
  db ++ batch

/-- Net effect of `_insert_mongo(docs)` on the collection: one `insert_one`
per document through the shared `self.mongo_col`. -/
def insert_mongo (db : List MongoDoc) (docs : List MongoDoc) : List MongoDoc :=
  db ++ docs

/-- Model of `benchmark_concurrent_insert(num)`: generate and record the MySQL batch,
chunk it by `self.threads` and dispatch `_insert_mysql` per chunk; then the
same for MongoDB with `_insert_mongo`; finally append one result row.
`none` models the `ZeroDivisionError` that `divide_chunks` raises when
`self.threads == 0`. -/
def benchmark_concurrent_insert (num : Nat) (tA tB : Nat) (qb : QueryBenchmark)
    (rng : Rng) : Option (QueryBenchmark × Rng) :=
  let genA := genMysqlBatch num rng
  (divide_chunks genA.1 (qb.threads : Int)).bind (fun chunksA =>
    let genB := genMongoBatch num genA.2.2
    (divide_chunks genB.1 (qb.threads : Int)).bind (fun chunksB =>
      some ({ qb with
          inserted_cccds_mysql := qb.inserted_cccds_mysql ++ genA.2.1
          inserted_cccds_mongo := qb.inserted_cccds_mongo ++ genB.2.1
          mysql_db := chunksA.foldl insert_mysql qb.mysql_db
          mongo_db := chunksB.foldl insert_mongo qb.mongo_db
          results := qb.results
            ++ [("Concurrent Insert " ++ toString num, tA, tB)] },
        genB.2.2)))

/-- The update-pair loop of `benchmark_concurrent_update` for MySQL:
`for i in range(num): if i < len(scaled): updates.append((new_name, scaled[i]))`.
The first argument of the recursion is the current index `i`, the second the
remaining iteration count. -/
def buildMysqlUpdates (scaled : List Nat) : Nat → Nat → Rng → List (Nat × Nat) × Rng
  | _, 0, rng => ([], rng)
  | i, rem + 1, rng =>
    if h : i < scaled.length then
      let (nm, rng1) := rng.draw
      let rest := buildMysqlUpdates scaled (i + 1) rem rng1
      ((nm, scaled.get ⟨i, h⟩) :: rest.1, rest.2)
    else
      buildMysqlUpdates scaled (i + 1) rem rng

/-- The update-pair loop for MongoDB: identical except the pair order is
`(cccd, new_name)`. -/
def buildMongoUpdates (scaled : List Nat) : Nat → Nat → Rng → List (Nat × Nat) × Rng
  | _, 0, rng => ([], rng)
  | i, rem + 1, rng =>
    if h : i < scaled.length then
      let (nm, rng1) := rng.draw
      let rest := buildMongoUpdates scaled (i + 1) rem rng1
      ((scaled.get ⟨i, h⟩, nm) :: rest.1, rest.2)
    else
      buildMongoUpdates scaled (i + 1) rem rng

/-- Net effect of `_update_mysql(updates)` on the table: for each
`(new_name, cccd)` pair, `UPDATE thanh_vien SET ten = %s WHERE cccd = %s`
renames every row whose `cccd` matches (fresh connection, commit at end). -/
def update_mysql (db : List MysqlRow) (updates : List (Nat × Nat)) : List MysqlRow :=
  updates.foldl
    (fun d u => d.map (fun r => if r.cccd = u.2 then { r with ten := u.1 } else r)) db

/-- Semantics of `update_one`: rename the first document matching the key. -/
def mongoUpdateFirst (db : List MongoDoc) (cccd nm : Nat) : List MongoDoc :=
  match db with
  | [] => []
  | d :: ds =>
    if d.cccd = cccd then { d with ten := nm } :: ds
    else d :: mongoUpdateFirst ds cccd nm

/-- Net effect of `_update_mongo(updates)` on the collection: one
`update_one({"cccd": cccd}, {"$set": {"ten": new_name}})` per pair, under a
fresh client. -/
def update_mongo (db : List MongoDoc) (updates : List (Nat × Nat)) : List MongoDoc :=
  updates.foldl (fun d u => mongoUpdateFirst d u.1 u.2) db

/-- Model of `benchmark_concurrent_update(num)`: scale `inserted_cccds_mysql` to `num`
keys, pair each with a fresh random name, chunk and dispatch `_update_mysql`;
then the same for MongoDB; finally append one result row.  The reference key
sets are only read, never written. -/
def benchmark_concurrent_update (num : Nat) (tA tB : Nat) (qb : QueryBenchmark)
    (rng : Rng) : Option (QueryBenchmark × Rng) :=
  let scaledA := scale_list_repeat qb.inserted_cccds_mysql num
  let builtA := buildMysqlUpdates scaledA 0 num rng
  (divide_chunks builtA.1 (qb.threads : Int)).bind (fun chunksA =>
    let scaledB := scale_list_repeat qb.inserted_cccds_mongo num
    let builtB := buildMongoUpdates scaledB 0 num builtA.2
    (divide_chunks builtB.1 (qb.threads : Int)).bind (fun chunksB =>
      some ({ qb with
          mysql_db := chunksA.foldl update_mysql qb.mysql_db
          mongo_db := chunksB.foldl update_mongo qb.mongo_db
          results := qb.results
            ++ [("Concurrent Update " ++ toString num, tA, tB)] },
        builtB.2)))

/-- A registered query workload for `run()`: a label and the predetermined
outcome of each backend's timed query (elapsed time, or an error raised
inside the timed window). -/
structure Workload where
  label : String
  mysqlOutcome : Except String Nat
  mongoOutcome : Except String Nat

/-- Both timed operations of the workload succeed. -/
def wlOk (w : Workload) : Prop :=
  (∃ a, w.mysqlOutcome = .ok a) ∧ (∃ b, w.mongoOutcome = .ok b)

/-- The loop of `run()` with the current `self.results` as accumulator: for
each workload run the MySQL query then the Mongo query; append one result
row on success; a raised error propagates immediately, leaving the
accumulated results as they are. -/
def runAux : List Workload → List MeasurementResult →
    List MeasurementResult × Option String
  | [], acc => (acc, none)
  | w :: rest, acc =>
    match w.mysqlOutcome with
    | .error e => (acc, some e)
    | .ok tA =>
      match w.mongoOutcome with
      | .error e => (acc, some e)
      | .ok tB => runAux rest (acc ++ [(w.label, tA, tB)])

/-- Model of `run()` (benchmarker.py lines 98-103): resets `self.results = []`, then
iterates the registered queries.  Returns the final results list and the
surfaced error, if any. -/
def run (queries : List Workload) : List MeasurementResult × Option String :=
  runAux queries []

/-- Connection-discipline events a worker task performs, read off the code
structure of the insert helpers. -/
inductive BackendEvent
  | acquireFreshConnection
  | useSharedOrchestratorHandle
  | writeRecord
  | commit
  | closeConnection
deriving DecidableEq

/-- Event trace of `_insert_mysql(batch)` (benchmarker.py lines 146-157):
`mysql.connector.connect(**self.mysql_config)` at task start, one INSERT per
record, `conn.commit()`, `conn.close()`. -/
def insertMysqlTrace (batch : List MysqlRow) : List BackendEvent :=
  [BackendEvent.acquireFreshConnection]
    ++ batch.map (fun _ => BackendEvent.writeRecord)
    ++ [BackendEvent.commit, BackendEvent.closeConnection]

/-- Event trace of `_insert_mongo(docs)` (benchmarker.py lines 159-161): one
`self.mongo_col.insert_one(doc)` per document — every write goes through the
orchestrator's shared collection handle; no connection of its own, no
client-side commit. -/
def insertMongoTrace (docs : List MongoDoc) : List BackendEvent :=
  (docs.map (fun _ =>
    [BackendEvent.useSharedOrchestratorHandle, BackendEvent.writeRecord])).flatten

/-- The worker owns its connection: it acquires a fresh one and never touches
a handle shared with the orchestrator. -/
def workerOwnsConnection (tr : List BackendEvent) : Prop :=
  BackendEvent.acquireFreshConnection ∈ tr
    ∧ BackendEvent.useSharedOrchestratorHandle ∉ tr

/-- The task commits before returning. -/
def commitsBeforeReturn (tr : List BackendEvent) : Prop :=
  BackendEvent.commit ∈ tr

/-- A concrete benchmark state for witnesses: one worker thread, everything
else empty. -/
def qbOneThread : QueryBenchmark :=
  { threads := 1, inserted_cccds_mysql := [], inserted_cccds_mongo := [],
    results := [], mysql_db := [], mongo_db := [] }

/-- The identity random stream, used as a concrete random source. -/
def natRng : Rng :=
  { stream := fun i => i, pos := 0 }

/-! ### Slice lemmas -/

theorem pySlice_length (l : List α) (a b : Nat) :
    (pySlice l a b).length = min b l.length - a := by
  simp [pySlice]

theorem pySlice_length_of_le (l : List α) (a b : Nat) (hb : b ≤ l.length) :
    (pySlice l a b).length = b - a := by
  rw [pySlice_length, Nat.min_eq_left hb]

theorem pySlice_self (l : List α) (a : Nat) : pySlice l a a = [] := by
  apply List.drop_eq_nil_of_le
  simp

theorem pySlice_zero_length (l : List α) : pySlice l 0 l.length = l := by
  simp [pySlice]

theorem pySlice_append (l : List α) (a b c : Nat) (hab : a ≤ b) (hbc : b ≤ c) :
    pySlice l a b ++ pySlice l b c = pySlice l a c := by
  have htake : l.take b = (l.take c).take b := by
    rw [List.take_take, Nat.min_eq_left hbc]
  unfold pySlice
  rw [htake]
  generalize l.take c = T
  by_cases hlen : a ≤ (T.take b).length
  · conv_rhs => rw [← List.take_append_drop b T]
    rw [List.drop_append_of_le_length hlen]
  · push_neg at hlen
    rw [List.length_take] at hlen
    have hTa : T.length < a := by omega
    have h1 : (T.take b).length ≤ a := by simp; omega
    have h2 : T.length ≤ b := by omega
    have h3 : T.length ≤ a := by omega
    rw [List.drop_eq_nil_of_le h1, List.drop_eq_nil_of_le h2,
      List.drop_eq_nil_of_le h3]
    rfl

theorem mono_of_step (f : Nat → Nat) (hf : ∀ i, f i ≤ f (i + 1)) :
    ∀ a b : Nat, a ≤ b → f a ≤ f b := by
  intro a b hab
  induction b with
  | zero =>
    have ha : a = 0 := by omega
    subst ha; exact le_refl _
  | succ b ih =>
    rcases Nat.lt_or_ge a (b + 1) with h | h
    · exact le_trans (ih (by omega)) (hf b)
    · have ha : a = b + 1 := by omega
      subst ha; exact le_refl _

/-- Concatenating consecutive slices along a monotone boundary function. -/
theorem join_pySlices (l : List α) (f : Nat → Nat) (hf : ∀ i, f i ≤ f (i + 1)) :
    ∀ (cnt s : Nat),
      ((List.range' s cnt).map (fun i => pySlice l (f i) (f (i + 1)))).flatten
        = pySlice l (f s) (f (s + cnt)) := by
  intro cnt
  induction cnt with
  | zero =>
    intro s
    simp [pySlice_self]
  | succ c ih =>
    intro s
    rw [List.range'_succ, List.map_cons, List.flatten_cons, ih (s + 1)]
    rw [pySlice_append l (f s) (f (s + 1)) (f (s + 1 + c)) (hf s)
      (mono_of_step f hf _ _ (by omega))]
    congr 2
    omega

/-! ### `divide_chunks` at a positive chunk count -/

theorem divide_chunks_pos (l : List α) (n : Nat) (hn : 0 < n) :
    divide_chunks l (n : Int) = some (chunksOf l n) := by
  unfold divide_chunks chunksOf chunkBound
  have hne : (n : Int) ≠ 0 := by
    simp; omega
  rw [if_neg hne]
  have hdiv : Int.fdiv (l.length : Int) (n : Int) = ((l.length / n : Nat) : Int) := by
    rw [← Int.ofNat_fdiv]
  have hmod : Int.fmod (l.length : Int) (n : Int) = ((l.length % n : Nat) : Int) := by
    rw [← Int.ofNat_fmod]
  simp only [hdiv, hmod, Int.toNat_ofNat]
  congr 1
  apply List.map_congr_left
  intro i _
  have e1 : (Int.ofNat i * ((l.length / n : Nat) : Int)
      + min (Int.ofNat i) ((l.length % n : Nat) : Int)).toNat
      = i * (l.length / n) + min i (l.length % n) := by
    simp only [Int.ofNat_eq_natCast, ← Nat.cast_min, ← Nat.cast_mul, ← Nat.cast_one,
      ← Nat.cast_add, Int.toNat_ofNat]
  have e2 : ((Int.ofNat i + 1) * ((l.length / n : Nat) : Int)
      + min (Int.ofNat i + 1) ((l.length % n : Nat) : Int)).toNat
      = (i + 1) * (l.length / n) + min (i + 1) (l.length % n) := by
    have h1 : (Int.ofNat i + 1 : Int) = ((i + 1 : Nat) : Int) := by
      simp
    rw [h1]
    simp only [← Nat.cast_min, ← Nat.cast_mul, ← Nat.cast_add, Int.toNat_ofNat]
  rw [e1, e2]

theorem divide_chunks_zero (l : List α) : divide_chunks l 0 = none := by
  simp [divide_chunks]

theorem divide_chunks_neg (l : List α) (n : Int) (hn : n < 0) :
    divide_chunks l n = some [] := by
  unfold divide_chunks
  rw [if_neg (by omega)]
  have : n.toNat = 0 := Int.toNat_of_nonpos (le_of_lt hn)
  rw [this]
  simp

/-! ### Properties of `chunksOf` -/

theorem chunkBound_step (l : List α) (n : Nat) (i : Nat) :
    chunkBound l n i ≤ chunkBound l n (i + 1) := by
  unfold chunkBound
  have h1 : i * (l.length / n) ≤ (i + 1) * (l.length / n) :=
    Nat.mul_le_mul_right _ (Nat.le_succ i)
  have h2 : min i (l.length % n) ≤ min (i + 1) (l.length % n) :=
    min_le_min (Nat.le_succ i) (le_refl _)
  omega

theorem chunkBound_zero (l : List α) (n : Nat) : chunkBound l n 0 = 0 := by
  simp [chunkBound]

theorem chunkBound_last (l : List α) (n : Nat) (hn : 0 < n) :
    chunkBound l n n = l.length := by
  unfold chunkBound
  have hm : l.length % n < n := Nat.mod_lt _ hn
  have hdm : n * (l.length / n) + l.length % n = l.length := Nat.div_add_mod _ _
  have : min n (l.length % n) = l.length % n := Nat.min_eq_right (le_of_lt hm)
  rw [this, Nat.mul_comm n (l.length / n)] at *
  omega

theorem chunkBound_le_length (l : List α) (n : Nat) (hn : 0 < n) (i : Nat)
    (hi : i ≤ n) : chunkBound l n i ≤ l.length := by
  calc chunkBound l n i ≤ chunkBound l n n :=
        mono_of_step _ (chunkBound_step l n) _ _ hi
    _ = l.length := chunkBound_last l n hn

theorem chunksOf_length (l : List α) (n : Nat) : (chunksOf l n).length = n := by
  simp [chunksOf]

theorem chunksOf_flatten (l : List α) (n : Nat) (hn : 0 < n) :
    (chunksOf l n).flatten = l := by
  unfold chunksOf
  rw [List.range_eq_range', join_pySlices l _ (chunkBound_step l n) n 0]
  rw [Nat.zero_add, chunkBound_zero, chunkBound_last l n hn, pySlice_zero_length]

theorem chunk_len_arith (i K M : Nat) :
    i * K + K + min (i + 1) M - (i * K + min i M) = if i < M then K + 1 else K := by
  rcases Nat.lt_or_ge i M with hc | hc
  · rw [if_pos hc]
    omega
  · rw [if_neg (by omega)]
    omega

theorem chunksOf_get_length (l : List α) (n : Nat) (hn : 0 < n) (i : Nat)
    (hi : i < n) :
    ∀ h : i < (chunksOf l n).length,
      ((chunksOf l n).get ⟨i, h⟩).length
        = if i < l.length % n then l.length / n + 1 else l.length / n := by
  intro h
  unfold chunksOf
  simp only [List.get_eq_getElem, List.getElem_map, List.getElem_range]
  rw [pySlice_length_of_le _ _ _ (chunkBound_le_length l n hn (i + 1) (by omega))]
  unfold chunkBound
  have hstep : (i + 1) * (l.length / n) = i * (l.length / n) + l.length / n :=
    Nat.succ_mul _ _
  rw [hstep]
  exact chunk_len_arith i (l.length / n) (l.length % n)

theorem chunksOf_mem_length (l : List α) (n : Nat) (hn : 0 < n) (c : List α)
    (hc : c ∈ chunksOf l n) :
    c.length = l.length / n ∨ c.length = l.length / n + 1 := by
  obtain ⟨⟨i, hi⟩, rfl⟩ := List.mem_iff_get.mp hc
  have hi' : i < n := by
    simpa [chunksOf_length] using hi
  rcases Nat.lt_or_ge i (l.length % n) with hc' | hc'
  · right
    rw [chunksOf_get_length l n hn i hi' hi, if_pos hc']
  · left
    rw [chunksOf_get_length l n hn i hi' hi, if_neg (by omega)]

theorem chunksOf_sizes_balanced (l : List α) (n : Nat) (hn : 0 < n) :
    ∀ c₁ ∈ chunksOf l n, ∀ c₂ ∈ chunksOf l n, c₁.length ≤ c₂.length + 1 := by
  intro c₁ h₁ c₂ h₂
  rcases chunksOf_mem_length l n hn c₁ h₁ with e₁ | e₁ <;>
    rcases chunksOf_mem_length l n hn c₂ h₂ with e₂ | e₂ <;> omega

/-! ### Properties of `scale_list_repeat` -/

theorem scale_list_repeat_nil (n : Nat) :
    scale_list_repeat ([] : List α) n = [] := rfl

theorem scale_list_repeat_take (lst : List α) (n : Nat) (h : n ≤ lst.length) :
    scale_list_repeat lst n = lst.take n := by
  cases lst with
  | nil => simp [scale_list_repeat]
  | cons x xs =>
    simp only [scale_list_repeat]
    rw [if_pos h]

theorem scale_list_repeat_length (lst : List α) (n : Nat) (h : lst ≠ []) :
    (scale_list_repeat lst n).length = n := by
  cases lst with
  | nil => exact absurd rfl h
  | cons x xs =>
    simp only [scale_list_repeat]
    by_cases hc : (x :: xs).length ≥ n
    · rw [if_pos hc]
      simp only [List.length_take, List.length_cons]
      simp only [List.length_cons] at hc
      omega
    · rw [if_neg hc]
      simp

theorem scale_list_repeat_get? (lst : List α) (n : Nat) (h : lst ≠ [])
    (hlen : lst.length < n) (i : Nat) (hi : i < n) :
    (scale_list_repeat lst n).get? i = lst.get? (i % lst.length) := by
  cases lst with
  | nil => exact absurd rfl h
  | cons x xs =>
    simp only [scale_list_repeat]
    rw [if_neg (by omega)]
    have hl : i % (x :: xs).length < (x :: xs).length :=
      Nat.mod_lt _ (Nat.succ_pos _)
    simp only [List.get?_eq_getElem?, List.getElem?_map, List.getElem?_range hi,
      List.get_eq_getElem]
    rw [List.getElem?_eq_getElem hl]
    rfl

/-! ### Claim C1: the chunk partitioner -/

/-- C1. For every sequence `S` and positive `k`, `divide_chunks` returns exactly
`k` chunks whose in-order concatenation reproduces `S`, the chunk sizes differ
by at most 1, the first `len(S) mod k` chunks have size `⌈len/k⌉ = len/k + 1`
and the rest have size `⌊len/k⌋`; moreover `partition([1..10],3)` is
`[[1,2,3,4],[5,6,7],[8,9,10]]`, a `k` larger than the length yields empty
chunks but still exactly `k` chunks, and an empty input yields `k` empty
chunks. -/
theorem C1_divide_chunks_partition :
    (∀ (α : Type) (data : List α) (k : Nat), 0 < k →
      ∃ chunks, divide_chunks data (k : Int) = some chunks ∧
        chunks.length = k ∧
        chunks.flatten = data ∧
        (∀ c₁ ∈ chunks, ∀ c₂ ∈ chunks, c₁.length ≤ c₂.length + 1) ∧
        (∀ i, ∀ h : i < chunks.length,
          (chunks.get ⟨i, h⟩).length =
            if i < data.length % k then data.length / k + 1 else data.length / k))
    ∧ divide_chunks (List.range' 1 10) (3 : Int) = some [[1,2,3,4],[5,6,7],[8,9,10]]
    ∧ divide_chunks [1,2] (4 : Int) = some [[1],[2],[],[]]
    ∧ divide_chunks ([] : List Nat) (5 : Int) = some [[],[],[],[],[]] := by
  refine ⟨?_, by decide, by decide, by decide⟩
  intro α data k hk
  refine ⟨chunksOf data k, divide_chunks_pos data k hk, chunksOf_length data k,
    chunksOf_flatten data k hk, chunksOf_sizes_balanced data k hk, ?_⟩
  intro i h
  have hi : i < k := by
    rwa [chunksOf_length] at h
  exact chunksOf_get_length data k hk i hi h

/-- Witness for C1 at the concrete input `S = [1,2,3,4,5]`, `k = 2`. -/
theorem C1_divide_chunks_partition_witness :
    ∃ chunks, divide_chunks [1,2,3,4,5] ((2 : Nat) : Int) = some chunks ∧
      chunks.length = 2 ∧
      chunks.flatten = [1,2,3,4,5] ∧
      (∀ c₁ ∈ chunks, ∀ c₂ ∈ chunks, c₁.length ≤ c₂.length + 1) ∧
      (∀ i, ∀ h : i < chunks.length,
        (chunks.get ⟨i, h⟩).length =
          if i < [1,2,3,4,5].length % 2 then [1,2,3,4,5].length / 2 + 1
          else [1,2,3,4,5].length / 2) :=
  C1_divide_chunks_partition.1 Nat [1,2,3,4,5] 2 (by decide)

/-! ### Claim C4: chunk count `k ≤ 0` -/

/-- C4 counterexample: the claim says `divide_chunks` fails for every `k ≤ 0`,
but at `k = -1` it does not fail — it returns `some []` (Python's `range(-1)`
is empty, so the comprehension silently yields no chunks at all). -/
theorem C4_negative_k_does_not_fail :
    divide_chunks ([1,2,3] : List Nat) (-1) = some []
    ∧ divide_chunks ([1,2,3] : List Nat) (-1) ≠ none := by
  constructor
  · decide
  · decide

/-- C4 amended: `divide_chunks` fails (Python `ZeroDivisionError` from
`divmod`) exactly when `k = 0`; for `k < 0` it does not fail but returns an
empty list of chunks (zero chunks, not `k` chunks). -/
theorem C4_fail_only_at_zero :
    (∀ (α : Type) (data : List α), divide_chunks data 0 = none)
    ∧ (∀ (α : Type) (data : List α) (k : Int), k < 0 →
        divide_chunks data k = some []) := by
  constructor
  · intro α data
    exact divide_chunks_zero data
  · intro α data k hk
    exact divide_chunks_neg data k hk

/-- Witness for C4's amended theorem at `data = [4,5]`, `k = -2` and `k = 0`. -/
theorem C4_fail_only_at_zero_witness :
    divide_chunks ([4,5] : List Nat) 0 = none
    ∧ divide_chunks ([4,5] : List Nat) (-2) = some [] :=
  ⟨C4_fail_only_at_zero.1 Nat [4,5], C4_fail_only_at_zero.2 Nat [4,5] (-2) (by decide)⟩

/-! ### Claim C2: the key scaler -/

/-- C2. `scale_list_repeat` returns `[]` on an empty list, truncates to the
first `n` elements when `len(L) ≥ n`, and otherwise returns a list of length
exactly `n` whose element at index `i` is `L[i % len(L)]`; in particular
`scale([1,2,3],7) = [1,2,3,1,2,3,1]`. -/
theorem C2_scale_list_repeat_spec :
    (∀ (α : Type) (n : Nat), scale_list_repeat ([] : List α) n = [])
    ∧ (∀ (α : Type) (lst : List α) (n : Nat), n ≤ lst.length →
        scale_list_repeat lst n = lst.take n)
    ∧ (∀ (α : Type) (lst : List α) (n : Nat), lst ≠ [] → lst.length < n →
        (scale_list_repeat lst n).length = n
        ∧ ∀ i, i < n →
            (scale_list_repeat lst n).get? i = lst.get? (i % lst.length))
    ∧ scale_list_repeat [1,2,3] 7 = [1,2,3,1,2,3,1] := by
  refine ⟨?_, ?_, ?_, by decide⟩
  · intro α n
    exact scale_list_repeat_nil n
  · intro α lst n h
    exact scale_list_repeat_take lst n h
  · intro α lst n h hlen
    exact ⟨scale_list_repeat_length lst n h,
      fun i hi => scale_list_repeat_get? lst n h hlen i hi⟩

/-- Witness for C2 at concrete inputs: truncation at `L = [1,2,3,4]`, `n = 2`,
and cyclic repetition at `L = [1,2]`, `n = 5`. -/
theorem C2_scale_list_repeat_spec_witness :
    scale_list_repeat [1,2,3,4] 2 = [1,2,3,4].take 2
    ∧ ((scale_list_repeat [1,2] 5).length = 5
        ∧ ∀ i, i < 5 →
            (scale_list_repeat [1,2] 5).get? i = [1,2].get? (i % [1,2].length)) :=
  ⟨C2_scale_list_repeat_spec.2.1 Nat [1,2,3,4] 2 (by decide),
   C2_scale_list_repeat_spec.2.2.1 Nat [1,2] 5 (by decide) (by decide)⟩

/-! ### Claim C9: determinism of the key scaler -/

/-- C9. The key scaler is deterministic and restartable: it is a pure function
of its inputs, so two evaluations on equal inputs yield equal outputs. -/
theorem C9_scale_list_repeat_deterministic :
    ∀ (α : Type) (l₁ l₂ : List α) (n₁ n₂ : Nat), l₁ = l₂ → n₁ = n₂ →
      scale_list_repeat l₁ n₁ = scale_list_repeat l₂ n₂ := by
  intro α l₁ l₂ n₁ n₂ hl hn
  rw [hl, hn]

/-- Witness for C9 at `L = [1,2,3]`, `n = 4`. -/
theorem C9_scale_list_repeat_deterministic_witness :
    scale_list_repeat [1,2,3] 4 = scale_list_repeat [1,2,3] 4 :=
  C9_scale_list_repeat_deterministic Nat [1,2,3] [1,2,3] 4 4 rfl rfl

/-! ### Generation-loop and worker lemmas -/

theorem genMysqlBatch_batch_length : ∀ (n : Nat) (rng : Rng),
    (genMysqlBatch n rng).1.length = n := by
  intro n
  induction n with
  | zero => intro rng; rfl
  | succ n ih =>
    intro rng
    simp [genMysqlBatch, Rng.draw, ih]

theorem genMysqlBatch_keys_length : ∀ (n : Nat) (rng : Rng),
    (genMysqlBatch n rng).2.1.length = n := by
  intro n
  induction n with
  | zero => intro rng; rfl
  | succ n ih =>
    intro rng
    simp [genMysqlBatch, Rng.draw, ih]

/-- The recorded MySQL reference keys are exactly the cccds of the generated
batch, in order. -/
theorem genMysqlBatch_keys_eq : ∀ (n : Nat) (rng : Rng),
    (genMysqlBatch n rng).2.1 = (genMysqlBatch n rng).1.map MysqlRow.cccd := by
  intro n
  induction n with
  | zero => intro rng; rfl
  | succ n ih =>
    intro rng
    simp [genMysqlBatch, Rng.draw, ih]

theorem genMongoBatch_batch_length : ∀ (n : Nat) (rng : Rng),
    (genMongoBatch n rng).1.length = n := by
  intro n
  induction n with
  | zero => intro rng; rfl
  | succ n ih =>
    intro rng
    simp [genMongoBatch, Rng.draw, ih]

theorem genMongoBatch_keys_length : ∀ (n : Nat) (rng : Rng),
    (genMongoBatch n rng).2.1.length = n := by
  intro n
  induction n with
  | zero => intro rng; rfl
  | succ n ih =>
    intro rng
    simp [genMongoBatch, Rng.draw, ih]

theorem foldl_insert_mysql : ∀ (chunks : List (List MysqlRow)) (db : List MysqlRow),
    chunks.foldl insert_mysql db = db ++ chunks.flatten := by
  intro chunks
  induction chunks with
  | nil => intro db; simp
  | cons c cs ih =>
    intro db
    simp [insert_mysql, ih]

theorem foldl_insert_mongo : ∀ (chunks : List (List MongoDoc)) (db : List MongoDoc),
    chunks.foldl insert_mongo db = db ++ chunks.flatten := by
  intro chunks
  induction chunks with
  | nil => intro db; simp
  | cons c cs ih =>
    intro db
    simp [insert_mongo, ih]

/-- Closed form of `benchmark_concurrent_insert` for a positive thread count. -/
theorem benchmark_concurrent_insert_eq (num tA tB : Nat) (qb : QueryBenchmark)
    (rng : Rng) (h : 0 < qb.threads) :
    benchmark_concurrent_insert num tA tB qb rng = some
      ({ qb with
          inserted_cccds_mysql :=
            qb.inserted_cccds_mysql ++ (genMysqlBatch num rng).2.1
          inserted_cccds_mongo :=
            qb.inserted_cccds_mongo
              ++ (genMongoBatch num (genMysqlBatch num rng).2.2).2.1
          mysql_db := qb.mysql_db ++ (genMysqlBatch num rng).1
          mongo_db :=
            qb.mongo_db ++ (genMongoBatch num (genMysqlBatch num rng).2.2).1
          results := qb.results
            ++ [("Concurrent Insert " ++ toString num, tA, tB)] },
        (genMongoBatch num (genMysqlBatch num rng).2.2).2.2) := by
  simp only [benchmark_concurrent_insert]
  rw [divide_chunks_pos _ _ h, Option.some_bind, divide_chunks_pos _ _ h,
    Option.some_bind, foldl_insert_mysql, foldl_insert_mongo,
    chunksOf_flatten _ _ h, chunksOf_flatten _ _ h]

/-- Closed form of `benchmark_concurrent_update` for a positive thread count. -/
theorem benchmark_concurrent_update_eq (num tA tB : Nat) (qb : QueryBenchmark)
    (rng : Rng) (h : 0 < qb.threads) :
    benchmark_concurrent_update num tA tB qb rng = some
      ({ qb with
          mysql_db := (chunksOf
            (buildMysqlUpdates (scale_list_repeat qb.inserted_cccds_mysql num)
              0 num rng).1 qb.threads).foldl update_mysql qb.mysql_db
          mongo_db := (chunksOf
            (buildMongoUpdates (scale_list_repeat qb.inserted_cccds_mongo num)
              0 num
              (buildMysqlUpdates (scale_list_repeat qb.inserted_cccds_mysql num)
                0 num rng).2).1 qb.threads).foldl update_mongo qb.mongo_db
          results := qb.results
            ++ [("Concurrent Update " ++ toString num, tA, tB)] },
        (buildMongoUpdates (scale_list_repeat qb.inserted_cccds_mongo num) 0 num
          (buildMysqlUpdates (scale_list_repeat qb.inserted_cccds_mysql num)
            0 num rng).2).2) := by
  simp only [benchmark_concurrent_update]
  rw [divide_chunks_pos _ _ h, Option.some_bind, divide_chunks_pos _ _ h,
    Option.some_bind]

/-! ### Claim C5: counts of the concurrent insert benchmark -/

/-- C5. For every `total_count` and positive worker count,
`benchmark_concurrent_insert` generates exactly `num` records per backend,
partitions them via the chunk partitioner into exactly `threads` worker
tasks whose record counts differ by at most 1, and appends exactly `num` new
entries to each backend's reference key set and `num` new records to each
backend. -/
theorem C5_concurrent_insert_counts :
    ∀ (num tA tB : Nat) (qb : QueryBenchmark) (rng : Rng), 0 < qb.threads →
      ∃ qb' rng', benchmark_concurrent_insert num tA tB qb rng = some (qb', rng')
        ∧ (genMysqlBatch num rng).1.length = num
        ∧ (genMongoBatch num (genMysqlBatch num rng).2.2).1.length = num
        ∧ (∃ chunksA, divide_chunks (genMysqlBatch num rng).1
              (qb.threads : Int) = some chunksA
            ∧ chunksA.length = qb.threads
            ∧ ∀ c₁ ∈ chunksA, ∀ c₂ ∈ chunksA, c₁.length ≤ c₂.length + 1)
        ∧ (∃ chunksB, divide_chunks (genMongoBatch num (genMysqlBatch num rng).2.2).1
              (qb.threads : Int) = some chunksB
            ∧ chunksB.length = qb.threads
            ∧ ∀ c₁ ∈ chunksB, ∀ c₂ ∈ chunksB, c₁.length ≤ c₂.length + 1)
        ∧ qb'.inserted_cccds_mysql.length = qb.inserted_cccds_mysql.length + num
        ∧ qb'.inserted_cccds_mongo.length = qb.inserted_cccds_mongo.length + num
        ∧ qb'.mysql_db.length = qb.mysql_db.length + num
        ∧ qb'.mongo_db.length = qb.mongo_db.length + num := by
  intro num tA tB qb rng h
  refine ⟨_, _, benchmark_concurrent_insert_eq num tA tB qb rng h,
    genMysqlBatch_batch_length num rng, genMongoBatch_batch_length _ _,
    ⟨chunksOf (genMysqlBatch num rng).1 qb.threads,
      divide_chunks_pos _ _ h, chunksOf_length _ _,
      chunksOf_sizes_balanced _ _ h⟩,
    ⟨chunksOf (genMongoBatch num (genMysqlBatch num rng).2.2).1 qb.threads,
      divide_chunks_pos _ _ h, chunksOf_length _ _,
      chunksOf_sizes_balanced _ _ h⟩,
    ?_, ?_, ?_, ?_⟩
  · simp [genMysqlBatch_keys_length]
  · simp [genMongoBatch_keys_length]
  · simp [genMysqlBatch_batch_length]
  · simp [genMongoBatch_batch_length]

/-- Witness for C5 at `num = 1000`, ten worker threads. -/
theorem C5_concurrent_insert_counts_witness :
    ∃ qb' rng', benchmark_concurrent_insert 1000 0 0
        { threads := 10, inserted_cccds_mysql := [], inserted_cccds_mongo := [],
          results := [], mysql_db := [], mongo_db := [] } natRng = some (qb', rng')
      ∧ (genMysqlBatch 1000 natRng).1.length = 1000
      ∧ (genMongoBatch 1000 (genMysqlBatch 1000 natRng).2.2).1.length = 1000
      ∧ (∃ chunksA, divide_chunks (genMysqlBatch 1000 natRng).1
            ((10 : Nat) : Int) = some chunksA
          ∧ chunksA.length = 10
          ∧ ∀ c₁ ∈ chunksA, ∀ c₂ ∈ chunksA, c₁.length ≤ c₂.length + 1)
      ∧ (∃ chunksB, divide_chunks (genMongoBatch 1000 (genMysqlBatch 1000 natRng).2.2).1
            ((10 : Nat) : Int) = some chunksB
          ∧ chunksB.length = 10
          ∧ ∀ c₁ ∈ chunksB, ∀ c₂ ∈ chunksB, c₁.length ≤ c₂.length + 1)
      ∧ qb'.inserted_cccds_mysql.length = ([] : List Nat).length + 1000
      ∧ qb'.inserted_cccds_mongo.length = ([] : List Nat).length + 1000
      ∧ qb'.mysql_db.length = ([] : List MysqlRow).length + 1000
      ∧ qb'.mongo_db.length = ([] : List MongoDoc).length + 1000 :=
  C5_concurrent_insert_counts 1000 0 0
    { threads := 10, inserted_cccds_mysql := [], inserted_cccds_mongo := [],
      results := [], mysql_db := [], mongo_db := [] } natRng (by decide)

/-! ### Claim C10: frame of the concurrent update benchmark -/

/-- C10. `benchmark_concurrent_update` leaves both reference key sets
completely unchanged — it only reads them — and appends exactly one
`MeasurementResult` to the results list. -/
theorem C10_concurrent_update_frame :
    ∀ (num tA tB : Nat) (qb : QueryBenchmark) (rng : Rng), 0 < qb.threads →
      ∃ qb' rng', benchmark_concurrent_update num tA tB qb rng = some (qb', rng')
        ∧ qb'.inserted_cccds_mysql = qb.inserted_cccds_mysql
        ∧ qb'.inserted_cccds_mongo = qb.inserted_cccds_mongo
        ∧ qb'.results = qb.results
            ++ [("Concurrent Update " ++ toString num, tA, tB)] := by
  intro num tA tB qb rng h
  exact ⟨_, _, benchmark_concurrent_update_eq num tA tB qb rng h, rfl, rfl, rfl⟩

/-- Witness for C10 at `num = 3`, one worker thread, key sets `[7]`, `[9]`. -/
theorem C10_concurrent_update_frame_witness :
    ∃ qb' rng', benchmark_concurrent_update 3 0 0
        { threads := 1, inserted_cccds_mysql := [7], inserted_cccds_mongo := [9],
          results := [], mysql_db := [], mongo_db := [] } natRng = some (qb', rng')
      ∧ qb'.inserted_cccds_mysql = [7]
      ∧ qb'.inserted_cccds_mongo = [9]
      ∧ qb'.results = [] ++ [("Concurrent Update " ++ toString 3, 0, 0)] :=
  C10_concurrent_update_frame 3 0 0
    { threads := 1, inserted_cccds_mysql := [7], inserted_cccds_mongo := [9],
      results := [], mysql_db := [], mongo_db := [] } natRng (by decide)

/-! ### Claim C3: the reference key sets versus the inserted records -/

/-- C3 evaluated at a failing input (num = 1, one thread, the identity random
stream, empty initial state).  The MySQL side is faithful: the recorded key
equals the cccd of the inserted row.  The MongoDB side is not: the loop
records the first draw (2) into `inserted_cccds_mongo` but the document it
inserts carries a *different*, third draw (4) as its cccd, so the recorded
key does not exist in the Mongo backend and a later update benchmark drawing
from this key set updates nothing. -/
theorem C3_mongo_keyset_records_wrong_keys :
    ∃ qb' rng', benchmark_concurrent_insert 1 0 0 qbOneThread natRng = some (qb', rng')
      ∧ qb'.inserted_cccds_mysql = [1]
      ∧ qb'.mysql_db.map MysqlRow.cccd = [1]
      ∧ (∀ c ∈ qb'.inserted_cccds_mysql, c ∈ qb'.mysql_db.map MysqlRow.cccd)
      ∧ qb'.inserted_cccds_mongo = [2]
      ∧ qb'.mongo_db.map MongoDoc.cccd = [4]
      ∧ ¬ (∀ c ∈ qb'.inserted_cccds_mongo, c ∈ qb'.mongo_db.map MongoDoc.cccd) := by
  refine ⟨_, _, rfl, ?_, ?_, ?_, ?_, ?_, ?_⟩ <;> decide

/-! ### Update-pair loop lemmas -/

theorem buildMysqlUpdates_length (scaled : List Nat) :
    ∀ (rem i : Nat) (rng : Rng), i + rem ≤ scaled.length →
      (buildMysqlUpdates scaled i rem rng).1.length = rem := by
  intro rem
  induction rem with
  | zero => intro i rng _; rfl
  | succ rem ih =>
    intro i rng h
    have hi : i < scaled.length := by omega
    simp only [buildMysqlUpdates, dif_pos hi, Rng.draw]
    simp [ih (i + 1) _ (by omega)]

theorem buildMysqlUpdates_snd_map (scaled : List Nat) :
    ∀ (rem i : Nat) (rng : Rng), i + rem ≤ scaled.length →
      (buildMysqlUpdates scaled i rem rng).1.map Prod.snd
        = (scaled.drop i).take rem := by
  intro rem
  induction rem with
  | zero => intro i rng _; simp [buildMysqlUpdates]
  | succ rem ih =>
    intro i rng h
    have hi : i < scaled.length := by omega
    simp only [buildMysqlUpdates, dif_pos hi, Rng.draw]
    rw [List.drop_eq_getElem_cons hi, List.take_succ_cons]
    simp only [List.map_cons]
    rw [ih (i + 1) _ (by omega)]
    rfl

theorem buildMysqlUpdates_fst_map (scaled : List Nat) :
    ∀ (rem i : Nat) (rng : Rng), i + rem ≤ scaled.length →
      (buildMysqlUpdates scaled i rem rng).1.map Prod.fst
        = (List.range rem).map (fun j => rng.stream (rng.pos + j)) := by
  intro rem
  induction rem with
  | zero => intro i rng _; simp [buildMysqlUpdates]
  | succ rem ih =>
    intro i rng h
    have hi : i < scaled.length := by omega
    simp only [buildMysqlUpdates, dif_pos hi, Rng.draw]
    rw [List.range_succ_eq_map]
    simp only [List.map_cons, List.map_map]
    rw [ih (i + 1) _ (by omega)]
    congr 1
    apply List.map_congr_left
    intro j _
    show rng.stream (rng.pos + 1 + j) = rng.stream (rng.pos + Nat.succ j)
    exact congrArg rng.stream (by omega)

theorem buildMongoUpdates_length (scaled : List Nat) :
    ∀ (rem i : Nat) (rng : Rng), i + rem ≤ scaled.length →
      (buildMongoUpdates scaled i rem rng).1.length = rem := by
  intro rem
  induction rem with
  | zero => intro i rng _; rfl
  | succ rem ih =>
    intro i rng h
    have hi : i < scaled.length := by omega
    simp only [buildMongoUpdates, dif_pos hi, Rng.draw]
    simp [ih (i + 1) _ (by omega)]

theorem buildMongoUpdates_fst_map (scaled : List Nat) :
    ∀ (rem i : Nat) (rng : Rng), i + rem ≤ scaled.length →
      (buildMongoUpdates scaled i rem rng).1.map Prod.fst
        = (scaled.drop i).take rem := by
  intro rem
  induction rem with
  | zero => intro i rng _; simp [buildMongoUpdates]
  | succ rem ih =>
    intro i rng h
    have hi : i < scaled.length := by omega
    simp only [buildMongoUpdates, dif_pos hi, Rng.draw]
    rw [List.drop_eq_getElem_cons hi, List.take_succ_cons]
    simp only [List.map_cons]
    rw [ih (i + 1) _ (by omega)]
    rfl

theorem buildMongoUpdates_snd_map (scaled : List Nat) :
    ∀ (rem i : Nat) (rng : Rng), i + rem ≤ scaled.length →
      (buildMongoUpdates scaled i rem rng).1.map Prod.snd
        = (List.range rem).map (fun j => rng.stream (rng.pos + j)) := by
  intro rem
  induction rem with
  | zero => intro i rng _; simp [buildMongoUpdates]
  | succ rem ih =>
    intro i rng h
    have hi : i < scaled.length := by omega
    simp only [buildMongoUpdates, dif_pos hi, Rng.draw]
    rw [List.range_succ_eq_map]
    simp only [List.map_cons, List.map_map]
    rw [ih (i + 1) _ (by omega)]
    congr 1
    apply List.map_congr_left
    intro j _
    show rng.stream (rng.pos + 1 + j) = rng.stream (rng.pos + Nat.succ j)
    exact congrArg rng.stream (by omega)

/-- Scaling a non-empty key list to `num` keys and taking `num` of them back
gives the whole scaled list. -/
theorem scale_take_all (keys : List Nat) (num : Nat) (h : keys ≠ []) :
    ((scale_list_repeat keys num).drop 0).take num = scale_list_repeat keys num := by
  set s := scale_list_repeat keys num with hs
  have h1 : s.length = num := scale_list_repeat_length keys num h
  rw [List.drop_zero, ← h1]
  exact List.take_length s

/-! ### Claim C6: preconditions and data flow of the concurrent update -/

/-- C6. Under the precondition that the reference key set of the backend
being updated is non-empty (and a positive worker count), the concurrent
update benchmark scales that key set to exactly `num` keys via the key
scaler, builds exactly `num` update pairs that pair each scaled key, in
order, with a freshly generated random value (one fresh draw per pair),
partitions those `num` pairs losslessly into `threads` chunks via the chunk
partitioner before dispatch, and the dispatch itself succeeds. -/
theorem C6_concurrent_update_pairing :
    ∀ (num tA tB : Nat) (qb : QueryBenchmark) (rng : Rng),
      0 < qb.threads →
      qb.inserted_cccds_mysql ≠ [] →
      qb.inserted_cccds_mongo ≠ [] →
      (scale_list_repeat qb.inserted_cccds_mysql num).length = num
      ∧ (scale_list_repeat qb.inserted_cccds_mongo num).length = num
      ∧ (buildMysqlUpdates (scale_list_repeat qb.inserted_cccds_mysql num)
          0 num rng).1.length = num
      ∧ (buildMysqlUpdates (scale_list_repeat qb.inserted_cccds_mysql num)
          0 num rng).1.map Prod.snd = scale_list_repeat qb.inserted_cccds_mysql num
      ∧ (buildMysqlUpdates (scale_list_repeat qb.inserted_cccds_mysql num)
          0 num rng).1.map Prod.fst
          = (List.range num).map (fun j => rng.stream (rng.pos + j))
      ∧ (∃ chunksA, divide_chunks
            (buildMysqlUpdates (scale_list_repeat qb.inserted_cccds_mysql num)
              0 num rng).1 (qb.threads : Int) = some chunksA
          ∧ chunksA.length = qb.threads
          ∧ chunksA.flatten = (buildMysqlUpdates
              (scale_list_repeat qb.inserted_cccds_mysql num) 0 num rng).1)
      ∧ (buildMongoUpdates (scale_list_repeat qb.inserted_cccds_mongo num) 0 num
          (buildMysqlUpdates (scale_list_repeat qb.inserted_cccds_mysql num)
            0 num rng).2).1.length = num
      ∧ (buildMongoUpdates (scale_list_repeat qb.inserted_cccds_mongo num) 0 num
          (buildMysqlUpdates (scale_list_repeat qb.inserted_cccds_mysql num)
            0 num rng).2).1.map Prod.fst
          = scale_list_repeat qb.inserted_cccds_mongo num
      ∧ (∃ chunksB, divide_chunks
            (buildMongoUpdates (scale_list_repeat qb.inserted_cccds_mongo num) 0 num
              (buildMysqlUpdates (scale_list_repeat qb.inserted_cccds_mysql num)
                0 num rng).2).1 (qb.threads : Int) = some chunksB
          ∧ chunksB.length = qb.threads
          ∧ chunksB.flatten = (buildMongoUpdates
              (scale_list_repeat qb.inserted_cccds_mongo num) 0 num
              (buildMysqlUpdates (scale_list_repeat qb.inserted_cccds_mysql num)
                0 num rng).2).1)
      ∧ (∃ out, benchmark_concurrent_update num tA tB qb rng = some out) := by
  intro num tA tB qb rng ht hA hB
  have lA : (scale_list_repeat qb.inserted_cccds_mysql num).length = num :=
    scale_list_repeat_length _ _ hA
  have lB : (scale_list_repeat qb.inserted_cccds_mongo num).length = num :=
    scale_list_repeat_length _ _ hB
  refine ⟨lA, lB,
    buildMysqlUpdates_length _ num 0 rng (by omega), ?_,
    buildMysqlUpdates_fst_map _ num 0 rng (by omega),
    ⟨chunksOf _ qb.threads, divide_chunks_pos _ _ ht, chunksOf_length _ _,
      chunksOf_flatten _ _ ht⟩,
    buildMongoUpdates_length _ num 0 _ (by omega), ?_,
    ⟨chunksOf _ qb.threads, divide_chunks_pos _ _ ht, chunksOf_length _ _,
      chunksOf_flatten _ _ ht⟩,
    ⟨_, benchmark_concurrent_update_eq num tA tB qb rng ht⟩⟩
  · rw [buildMysqlUpdates_snd_map _ num 0 rng (by omega)]
    exact scale_take_all _ _ hA
  · rw [buildMongoUpdates_fst_map _ num 0 _ (by omega)]
    exact scale_take_all _ _ hB

/-- Witness for C6 at `num = 2`, one worker thread, key sets `[7]` and `[9]`. -/
theorem C6_concurrent_update_pairing_witness :
    (scale_list_repeat [7] 2).length = 2
    ∧ (scale_list_repeat [9] 2).length = 2
    ∧ (buildMysqlUpdates (scale_list_repeat [7] 2) 0 2 natRng).1.length = 2
    ∧ (buildMysqlUpdates (scale_list_repeat [7] 2) 0 2 natRng).1.map Prod.snd
        = scale_list_repeat [7] 2
    ∧ (buildMysqlUpdates (scale_list_repeat [7] 2) 0 2 natRng).1.map Prod.fst
        = (List.range 2).map (fun j => natRng.stream (natRng.pos + j))
    ∧ (∃ chunksA, divide_chunks
          (buildMysqlUpdates (scale_list_repeat [7] 2) 0 2 natRng).1
          (((QueryBenchmark.mk 1 [7] [9] [] [] []).threads : Nat) : Int) = some chunksA
        ∧ chunksA.length = (QueryBenchmark.mk 1 [7] [9] [] [] []).threads
        ∧ chunksA.flatten
            = (buildMysqlUpdates (scale_list_repeat [7] 2) 0 2 natRng).1)
    ∧ (buildMongoUpdates (scale_list_repeat [9] 2) 0 2
        (buildMysqlUpdates (scale_list_repeat [7] 2) 0 2 natRng).2).1.length = 2
    ∧ (buildMongoUpdates (scale_list_repeat [9] 2) 0 2
        (buildMysqlUpdates (scale_list_repeat [7] 2) 0 2 natRng).2).1.map Prod.fst
        = scale_list_repeat [9] 2
    ∧ (∃ chunksB, divide_chunks
          (buildMongoUpdates (scale_list_repeat [9] 2) 0 2
            (buildMysqlUpdates (scale_list_repeat [7] 2) 0 2 natRng).2).1
          (((QueryBenchmark.mk 1 [7] [9] [] [] []).threads : Nat) : Int) = some chunksB
        ∧ chunksB.length = (QueryBenchmark.mk 1 [7] [9] [] [] []).threads
        ∧ chunksB.flatten = (buildMongoUpdates (scale_list_repeat [9] 2) 0 2
            (buildMysqlUpdates (scale_list_repeat [7] 2) 0 2 natRng).2).1)
    ∧ (∃ out, benchmark_concurrent_update 2 0 0
        (QueryBenchmark.mk 1 [7] [9] [] [] []) natRng = some out) :=
  C6_concurrent_update_pairing 2 0 0 (QueryBenchmark.mk 1 [7] [9] [] [] [])
    natRng (by decide) (by decide) (by decide)

/-! ### `run()` lemmas -/

theorem runAux_acc : ∀ (ws : List Workload) (acc : List MeasurementResult),
    runAux ws acc = (acc ++ (runAux ws []).1, (runAux ws []).2) := by
  intro ws
  induction ws with
  | nil => intro acc; simp [runAux]
  | cons w rest ih =>
    intro acc
    cases hA : w.mysqlOutcome with
    | error e => simp [runAux, hA]
    | ok tA =>
      cases hB : w.mongoOutcome with
      | error e => simp [runAux, hA, hB]
      | ok tB =>
        simp only [runAux, hA, hB, List.nil_append]
        rw [ih (acc ++ [(w.label, tA, tB)]), ih [(w.label, tA, tB)]]
        simp

/-! ### Claim C7: a timed-operation error aborts the sequential run -/

/-- C7. If during `run()` every workload before `w` succeeds and one of `w`'s
timed operations raises `e`, then the run stops at `w` and surfaces `e`, the
results list is exactly what it was before `w` started (one entry per
preceding workload), and nothing is appended for `w` or for any later
workload. -/
theorem C7_run_stops_on_error :
    ∀ (pre : List Workload) (w : Workload) (post : List Workload) (e : String),
      (∀ x ∈ pre, wlOk x) →
      (w.mysqlOutcome = .error e
        ∨ ((∃ a, w.mysqlOutcome = .ok a) ∧ w.mongoOutcome = .error e)) →
      run (pre ++ w :: post) = ((run pre).1, some e)
      ∧ (run pre).1.length = pre.length
      ∧ (run pre).2 = none := by
  intro pre
  induction pre with
  | nil =>
    intro w post e _ hw
    rcases hw with hA | ⟨⟨a, hA⟩, hB⟩
    · exact ⟨by simp [run, runAux, hA], by simp [run, runAux], by simp [run, runAux]⟩
    · exact ⟨by simp [run, runAux, hA, hB], by simp [run, runAux], by simp [run, runAux]⟩
  | cons x pre ih =>
    intro w post e hpre hw
    obtain ⟨⟨a, ha⟩, ⟨b, hb⟩⟩ := hpre x (List.mem_cons_self x pre)
    have hpre' : ∀ y ∈ pre, wlOk y := fun y hy => hpre y (List.mem_cons_of_mem x hy)
    obtain ⟨ih1, ih2, ih3⟩ := ih w post e hpre' hw
    have key : run ((x :: pre) ++ w :: post)
        = ([(x.label, a, b)] ++ (run (pre ++ w :: post)).1,
           (run (pre ++ w :: post)).2) := by
      show runAux (x :: (pre ++ w :: post)) [] = _
      simp only [runAux, ha, hb, List.nil_append]
      exact runAux_acc (pre ++ w :: post) [(x.label, a, b)]
    have key2 : run (x :: pre)
        = ([(x.label, a, b)] ++ (run pre).1, (run pre).2) := by
      show runAux (x :: pre) [] = _
      simp only [runAux, ha, hb, List.nil_append]
      exact runAux_acc pre [(x.label, a, b)]
    refine ⟨?_, ?_, ?_⟩
    · rw [key, ih1, key2]
    · rw [key2]
      simp [ih2]
    · rw [key2]
      exact ih3

/-- Witness for C7: one successful workload, then a workload whose MySQL
query raises "boom", then one more workload that is never reached. -/
theorem C7_run_stops_on_error_witness :
    run ([Workload.mk "q1" (Except.ok 1) (Except.ok 2)]
        ++ Workload.mk "q2" (Except.error "boom") (Except.ok 0)
          :: [Workload.mk "q3" (Except.ok 3) (Except.ok 4)])
      = ((run [Workload.mk "q1" (Except.ok 1) (Except.ok 2)]).1, some "boom")
    ∧ (run [Workload.mk "q1" (Except.ok 1) (Except.ok 2)]).1.length
        = [Workload.mk "q1" (Except.ok 1) (Except.ok 2)].length
    ∧ (run [Workload.mk "q1" (Except.ok 1) (Except.ok 2)]).2 = none :=
  C7_run_stops_on_error [Workload.mk "q1" (Except.ok 1) (Except.ok 2)]
    (Workload.mk "q2" (Except.error "boom") (Except.ok 0))
    [Workload.mk "q3" (Except.ok 3) (Except.ok 4)] "boom"
    (by
      intro x hx
      have hx' := List.mem_singleton.mp hx
      subst hx'
      exact ⟨⟨1, rfl⟩, ⟨2, rfl⟩⟩)
    (Or.inl rfl)

/-! ### Claim C8: connection discipline of the insert workers -/

/-- C8 counterexample: the claim says every concurrent insert worker of both
backends runs under a freshly acquired connection it owns exclusively and
commits before returning; but the MongoDB insert worker (`_insert_mongo`)
issues its writes through the orchestrator's shared `self.mongo_col` handle,
acquires no connection of its own, and performs no commit. -/
theorem C8_mongo_insert_worker_shares_handle :
    ¬ (workerOwnsConnection (insertMongoTrace [MongoDoc.mk 0 0])
        ∧ commitsBeforeReturn (insertMongoTrace [MongoDoc.mk 0 0])) := by
  unfold workerOwnsConnection commitsBeforeReturn
  decide

/-- C8 amended: the MySQL insert worker does follow the claimed discipline —
it acquires a fresh connection it alone uses and commits before returning —
while the MongoDB insert worker acquires no connection of its own, routes
every write through the orchestrator's shared collection handle (whenever it
has any document to insert), and never issues a client-side commit. -/
theorem C8_connection_discipline :
    (∀ batch : List MysqlRow, workerOwnsConnection (insertMysqlTrace batch)
        ∧ commitsBeforeReturn (insertMysqlTrace batch))
    ∧ (∀ docs : List MongoDoc,
        BackendEvent.acquireFreshConnection ∉ insertMongoTrace docs
        ∧ (docs ≠ [] →
            BackendEvent.useSharedOrchestratorHandle ∈ insertMongoTrace docs)
        ∧ BackendEvent.commit ∉ insertMongoTrace docs) := by
  constructor
  · intro batch
    refine ⟨⟨?_, ?_⟩, ?_⟩
    · simp [insertMysqlTrace]
    · simp [insertMysqlTrace]
    · simp [commitsBeforeReturn, insertMysqlTrace]
  · intro docs
    refine ⟨?_, ?_, ?_⟩
    · simp [insertMongoTrace, List.mem_flatten]
    · intro hne
      cases docs with
      | nil => exact absurd rfl hne
      | cons d ds => simp [insertMongoTrace]
    · simp [insertMongoTrace, List.mem_flatten]

/-- Witness for C8's amended theorem at one-element batches. -/
theorem C8_connection_discipline_witness :
    (workerOwnsConnection (insertMysqlTrace [MysqlRow.mk 1 2])
      ∧ commitsBeforeReturn (insertMysqlTrace [MysqlRow.mk 1 2]))
    ∧ BackendEvent.acquireFreshConnection ∉ insertMongoTrace [MongoDoc.mk 1 2]
    ∧ BackendEvent.useSharedOrchestratorHandle ∈ insertMongoTrace [MongoDoc.mk 1 2]
    ∧ BackendEvent.commit ∉ insertMongoTrace [MongoDoc.mk 1 2] :=
  ⟨C8_connection_discipline.1 [MysqlRow.mk 1 2],
   (C8_connection_discipline.2 [MongoDoc.mk 1 2]).1,
   (C8_connection_discipline.2 [MongoDoc.mk 1 2]).2.1 (by decide),
   (C8_connection_discipline.2 [MongoDoc.mk 1 2]).2.2⟩

end HqtcsdlLab
